import Mathlib

/-!
Verification development for the heimdall2 `hdf-converters` checklist
pipeline (`src/ckl-mapper/checklist-mapper.ts`): a shallow embedding of
`getStatus`, `transformImpact`, `parseFindingDetails` and
`ChecklistResults.toHdf`, with theorems settling the specification's
claims about them.  Strings are embedded as `List Char`; JavaScript
string operations (`split`, `indexOf`, `slice`, `toLowerCase`) are given
explicit executable definitions with the same semantics on the inputs at
hand.
-/

namespace HdfConverters

/-- JavaScript strings, embedded as lists of characters. -/
abbrev Str := List Char

/-- JavaScript `String.prototype.toLowerCase` (ASCII-faithful). -/
def toLowerStr (s : Str) : Str := s.map Char.toLower

/-- `ExecJSON.ControlResultStatus` from inspecjs: the status enum of a
control result. -/
inductive ControlResultStatus where
  | Passed
  | Failed
  | Error
  | Skipped
deriving DecidableEq

/-- `getStatus` from checklist-mapper.ts: case-insensitive mapping of a
raw status string onto the result-status enum. -/
def getStatus (input : Str) : ControlResultStatus :=
  let status := toLowerStr input
  if status = "notafinding".data ∨ status = "passed".data then
    ControlResultStatus.Passed
  else if status = "open".data ∨ status = "failed".data then
    ControlResultStatus.Failed
  else if status = "error".data then
    ControlResultStatus.Error
  else
    ControlResultStatus.Skipped

/-- The slice of `ChecklistVuln` (from checklistConstructor, whose file is
not under src/; field names are taken from their uses in
checklist-mapper.ts) that the mapped fields read. -/
structure ChecklistVuln where
  status : Str
  severity : Str
  severityoverride : Str
  findingdetails : Str
  vulnNum : Str
  ruleTitle : Str
  vulnDiscuss : Str
deriving DecidableEq

/-- `findSeverity` from checklist-mapper.ts: the severity override wins
when truthy (JavaScript truthiness: the empty string is falsy). -/
def findSeverity (vuln : ChecklistVuln) : Str :=
  if vuln.severityoverride ≠ [] then vuln.severityoverride
  else vuln.severity

/-- A JavaScript value that an indexed read of the compiled enum object
can produce: a number (embedded as an exact rational), a string (the
numeric enum's reverse-mapping name strings), or a member inherited from
`Object.prototype` (a function, or the prototype object itself for
`__proto__`), identified by the property name it was read through. -/
inductive JsValue where
  | num (q : Rat)
  | str (s : Str)
  | protoMember (name : Str)
deriving DecidableEq

/-- The own property names of `Object.prototype`, which an indexed read
of any plain object reaches through the prototype chain when the object
has no own property under the key. -/
def objectPrototypeKeys : List Str :=
  ["constructor".data, "hasOwnProperty".data, "isPrototypeOf".data,
   "propertyIsEnumerable".data, "toLocaleString".data, "toString".data,
   "valueOf".data, "__defineGetter__".data, "__defineSetter__".data,
   "__lookupGetter__".data, "__lookupSetter__".data, "__proto__".data]

/-- The compiled TypeScript numeric enum `ImpactMapping`, read by
arbitrary key: the forward keys high/medium/low hold the numbers, the
compiler-installed reverse mappings "0.7"/"0.5"/"0.3" hold the name
strings, any other key falls through to `Object.prototype` (inherited
members), and everything else reads as `undefined` (`none`). -/
def ImpactMapping (severity : Str) : Option JsValue :=
  if severity = "high".data then some (JsValue.num (7/10))
  else if severity = "medium".data then some (JsValue.num (5/10))
  else if severity = "low".data then some (JsValue.num (3/10))
  else if severity = "0.7".data then some (JsValue.str "high".data)
  else if severity = "0.5".data then some (JsValue.str "medium".data)
  else if severity = "0.3".data then some (JsValue.str "low".data)
  else if severity ∈ objectPrototypeKeys then some (JsValue.protoMember severity)
  else none

/-- `transformImpact` from checklist-mapper.ts: `Not Applicable` maps to
impact 0; otherwise the effective severity, lowercased, indexes the
compiled `ImpactMapping` enum object (so an unmapped severity can read a
reverse-mapping string, an inherited prototype member, or
`undefined`). -/
def transformImpact (vuln : ChecklistVuln) : Option JsValue :=
  if vuln.status = "Not Applicable".data then some (JsValue.num 0)
  else ImpactMapping (toLowerStr (findSeverity vuln))

/-- `ExecJSON.ControlResult` slice used by `parseFindingDetails`:
`code_desc` is optional (`none` models `undefined`), `message` is
nullable. -/
structure ControlResult where
  status : ControlResultStatus
  code_desc : Option Str
  message : Option Str
  start_time : Str
deriving DecidableEq

/-- The recognized per-segment status words (case-sensitive set from
checklist-mapper.ts). -/
def statusSet : List Str :=
  ["passed".data, "failed".data, "skipped".data, "error".data]

/-- JavaScript `String.prototype.indexOf` for a pattern string: the index
of the first occurrence, `none` modelling `-1`. -/
def indexOfSub (pat : Str) : Str → Option Nat
  | [] => if pat.isPrefixOf ([] : Str) then some 0 else none
  | c :: rest =>
      if pat.isPrefixOf (c :: rest) then some 0
      else (indexOfSub pat rest).map (· + 1)

/-- JavaScript `details.split(/\n(.*)/s, 2)`: the text before the first
newline paired with everything after it (`none` when there is no
newline, modelling the `undefined` second component). -/
def splitFirstNewline (s : Str) : Str × Option Str :=
  match indexOfSub ['\n'] s with
  | none => (s, none)
  | some k => (s.take k, some (s.drop (k + 1)))

/-- The fixed separator line used by the heimdall2 checklist export. -/
def sepStr : Str := "--------------------------------\n".data

/-- Fuel-driven worker for `splitSegs`; the fuel never runs out because
each step consumes at least the separator. -/
def splitSegsAux : Nat → Str → List Str
  | 0, s => [s]
  | fuel + 1, s =>
      match indexOfSub sepStr s with
      | none => [s]
      | some k => s.take k :: splitSegsAux fuel (s.drop (k + sepStr.length))

/-- JavaScript `code_desc.split('--------------------------------\n')`:
split into segments at each occurrence of the separator. -/
def splitSegs (s : Str) : List Str := splitSegsAux (s.length + 1) s

/-- The literal `"\nexpected"` marker searched for inside a segment's
remainder. -/
def expectedMarker : Str := "\nexpected".data

/-- The per-segment body of the loop in `parseFindingDetails`
(checklist-mapper.ts lines 122-150): split the segment at its first
newline; a recognized status token reclassifies the segment and the
`"\nexpected"` marker (when found at a positive index) splits
`code_desc` from `message`; otherwise the whole segment is `code_desc`
with the parent finding's status.  `none` models the TypeError raised
when the token is recognized but the segment has no newline
(`descAndMessage` is `undefined`). -/
def processSegment (parentStatus : ControlResultStatus) (details : Str) :
    Option ControlResult :=
  match splitFirstNewline details with
  | (findingStatus, some descAndMessage) =>
      if statusSet.contains findingStatus then
        match indexOfSub expectedMarker descAndMessage with
        | some i =>
            if 0 < i then
              let message := descAndMessage.drop i
              some { status := getStatus findingStatus,
                     code_desc := some (descAndMessage.take (i - 1)),
                     message := if message = [] then none else some message,
                     start_time := [] }
            else
              some { status := getStatus findingStatus,
                     code_desc := some descAndMessage,
                     message := none,
                     start_time := [] }
        | none =>
            some { status := getStatus findingStatus,
                   code_desc := some descAndMessage,
                   message := none,
                   start_time := [] }
      else
        some { status := parentStatus,
               code_desc := some details,
               message := none,
               start_time := [] }
  | (findingStatus, none) =>
      if statusSet.contains findingStatus then none
      else
        some { status := parentStatus,
               code_desc := some details,
               message := none,
               start_time := [] }

/-- Effectful map over a list in the `Option` monad, written out
structurally (models the imperative push loop, aborting on a raised
TypeError). -/
def mapOpt (f : α → Option β) : List α → Option (List β)
  | [] => some []
  | x :: xs =>
      match f x, mapOpt f xs with
      | some y, some ys => some (y :: ys)
      | _, _ => none

/-- Processing of one finding inside `parseFindingDetails`: a truthy
`code_desc` (present and non-empty) is split into segments and each
segment re-parsed; otherwise the finding passes through unchanged. -/
def parseFinding (finding : ControlResult) : Option (List ControlResult) :=
  match finding.code_desc with
  | some d =>
      if d = [] then some [finding]
      else mapOpt (processSegment finding.status) (splitSegs d)
  | none => some [finding]

/-- `parseFindingDetails` from checklist-mapper.ts: re-split every
finding's `code_desc` into multiple result objects. -/
def parseFindingDetails (input : List ControlResult) :
    Option (List ControlResult) :=
  (mapOpt parseFinding input).map List.flatten

/-- A `depends` entry of a profile: a reference to another profile by
name. -/
structure Dependency where
  name : Str
deriving DecidableEq

/-- The slice of `ExecJSON.Control` populated by the checklist mapping
(tags and code omitted; the CCI/NIST static tables are an external
dataset outside this core). -/
structure Control where
  id : Str
  title : Option Str
  desc : Option Str
  impact : Option JsValue
  results : List ControlResult
deriving DecidableEq

/-- The slice of `ExecJSON.Profile` read and written by
`ChecklistResults.toHdf`.  `none` models an `undefined` (absent)
field. -/
structure Profile where
  name : Str
  version : Str
  title : Option Str
  summary : Option Str
  license : Option Str
  supports : List Str
  attributes : List Str
  groups : List Str
  status : Option Str
  depends : Option (List Dependency)
  controls : List Control
  parent_profile : Option Str
  sha256 : Str
deriving DecidableEq

/-- The slice of `ExecJSON.Execution` the claims are about. -/
structure Execution where
  profiles : List Profile
deriving DecidableEq

/-- The `version` field imported from package.json (its concrete value is
irrelevant to every claim). -/
def HeimdallToolsVersion : Str := "2.6.29".data

/-- Serialization of a result status (JSON string value). -/
def serializeStatus : ControlResultStatus → Str
  | ControlResultStatus.Passed => "\"passed\"".data
  | ControlResultStatus.Failed => "\"failed\"".data
  | ControlResultStatus.Error => "\"error\"".data
  | ControlResultStatus.Skipped => "\"skipped\"".data

/-- Serialization of a string field value. -/
def serializeStr (s : Str) : Str := '"' :: (s ++ ['"'])

/-- Serialization of an optional string field (`none` prints as
`undefined`, matching an absent JSON key). -/
def serializeOptStr : Option Str → Str
  | none => "undefined".data
  | some s => serializeStr s

/-- Serialization of an exact rational impact value. -/
def serializeRat (q : Rat) : Str :=
  (toString q.num).data ++ '/' :: (toString q.den).data

/-- Serialization of a JavaScript value read off the enum object. -/
def serializeJsValue : JsValue → Str
  | JsValue.num q => serializeRat q
  | JsValue.str s => serializeStr s
  | JsValue.protoMember name => "[member ".data ++ name ++ "]".data

/-- Serialization of an optional impact value. -/
def serializeOptImpact : Option JsValue → Str
  | none => "undefined".data
  | some v => serializeJsValue v

/-- Serialization of one control result. -/
def serializeResult (r : ControlResult) : Str :=
  "\x7bstatus:".data ++ serializeStatus r.status ++
  ",code_desc:".data ++ serializeOptStr r.code_desc ++
  ",message:".data ++ serializeOptStr r.message ++
  ",start_time:".data ++ serializeStr r.start_time ++ "\x7d".data

/-- Serialization of one control. -/
def serializeControl (c : Control) : Str :=
  "\x7bid:".data ++ serializeStr c.id ++
  ",title:".data ++ serializeOptStr c.title ++
  ",desc:".data ++ serializeOptStr c.desc ++
  ",impact:".data ++ serializeOptImpact c.impact ++
  ",results:[".data ++
    List.intercalate ",".data (c.results.map serializeResult) ++ "]\x7d".data

/-- Serialization of a controls list. -/
def serializeControls (cs : List Control) : Str :=
  "[".data ++ List.intercalate ",".data (cs.map serializeControl) ++ "]".data

/-- Serialization of a depends list. -/
def serializeDepends : Option (List Dependency) → Str
  | none => "undefined".data
  | some ds =>
      "[".data ++
        List.intercalate ",".data
          (ds.map fun d => "\x7bname:".data ++ serializeStr d.name ++ "\x7d".data) ++
      "]".data

/-- Model of `JSON.stringify(profile)`: a deterministic rendering of every
profile field in declaration order. -/
def serializeProfile (p : Profile) : Str :=
  "\x7bname:".data ++ serializeStr p.name ++
  ",version:".data ++ serializeStr p.version ++
  ",title:".data ++ serializeOptStr p.title ++
  ",summary:".data ++ serializeOptStr p.summary ++
  ",license:".data ++ serializeOptStr p.license ++
  ",supports:[".data ++ List.intercalate ",".data (p.supports.map serializeStr) ++
  "],attributes:[".data ++ List.intercalate ",".data (p.attributes.map serializeStr) ++
  "],groups:[".data ++ List.intercalate ",".data (p.groups.map serializeStr) ++
  "],status:".data ++ serializeOptStr p.status ++
  ",depends:".data ++ serializeDepends p.depends ++
  ",controls:".data ++ serializeControls p.controls ++
  ",parent_profile:".data ++ serializeOptStr p.parent_profile ++
  ",sha256:".data ++ serializeStr p.sha256 ++ "\x7d".data

/-- Modelled from the spec: `generateHash` (exported by base-converter,
whose file is not under src/) computes the sha256 digest of its input
string; modelled as a deterministic content-dependent tag, which is all
the claims rely on (determinism and dependence on the exact serialized
content). -/
def generateHash (s : Str) : Str :=
  "sha256(".data ++ s ++ ")".data

/-- Header metadata of one STIG block of the checklist domain object
(checklistConstructor, not under src/; shape from the spec's data model
and the mapping paths `header.title` etc. in checklist-mapper.ts). -/
structure StigHeader where
  title : Str
  version : Str
  description : Str
  notice : Str
deriving DecidableEq

/-- One STIG block: header metadata plus vulnerabilities. -/
structure ChecklistStig where
  header : StigHeader
  vulns : List ChecklistVuln
deriving DecidableEq

/-- The checklist domain object (asset metadata omitted: no claim reads
it). -/
structure ChecklistObject where
  stigs : List ChecklistStig
deriving DecidableEq

/-- The single seed result of the `results` mapping node for one vuln
(status via `getStatus`, `code_desc` from `findingdetails`, empty
`start_time`), to which the `arrayTransformer` `parseFindingDetails` is
applied. -/
def initialResult (v : ChecklistVuln) : ControlResult :=
  { status := getStatus v.status,
    code_desc := some v.findingdetails,
    message := none,
    start_time := [] }

/-- Modelled from the spec: the BaseConverter mapping-tree walk (§4.2-4.4,
base-converter not under src/) applied to the per-control node of the
ChecklistMapper mapping literal (checklist-mapper.ts lines 243-323). -/
def vulnToControl (v : ChecklistVuln) : Option Control :=
  (parseFindingDetails [initialResult v]).map fun rs =>
    { id := v.vulnNum,
      title := some v.ruleTitle,
      desc := some v.vulnDiscuss,
      impact := transformImpact v,
      results := rs }

/-- Modelled from the spec: the BaseConverter walk applied to the per-
profile node of the ChecklistMapper mapping literal; per §4.4 each
profile's integrity hash is computed over its serialized controls
list. -/
def stigToProfile (s : ChecklistStig) : Option Profile :=
  (mapOpt vulnToControl s.vulns).map fun cs =>
    { name := s.header.title,
      version := s.header.version,
      title := some s.header.title,
      summary := some s.header.description,
      license := some s.header.notice,
      supports := [], attributes := [], groups := [],
      status := some "loaded".data,
      depends := none,
      controls := cs,
      parent_profile := none,
      sha256 := generateHash (serializeControls cs) }

/-- Modelled from the spec: `new ChecklistMapper(checklistObject).toHdf()`
as driven by the mapping literal — one profile per STIG block, in source
order. -/
def checklistMapperToHdf (co : ChecklistObject) : Option Execution :=
  (mapOpt stigToProfile co.stigs).map fun ps => { profiles := ps }

/-- The synthetic parent profile's name (checklist-mapper.ts line 192). -/
def parentProfileName : Str := "Parent Profile".data

/-- The per-child mutation of the multi-STIG loop (checklist-mapper.ts
lines 206-207): set `parent_profile`, then recompute `sha256` over the
serialized profile (whose `sha256` field still holds its previous
value at stringify time). -/
def childMutate (p : Profile) : Profile :=
  let p' := { p with parent_profile := some parentProfileName }
  { p' with sha256 := generateHash (serializeProfile p') }

/-- The synthetic parent profile as it stands at the end of the loop,
before its own hash is computed (checklist-mapper.ts lines 193-208):
depends collects every child's name in order and controls concatenates
every child's controls in order; its `sha256` field still holds the
empty string from the initializer. -/
def parentBase (ps : List Profile) : Profile :=
  { name := parentProfileName,
    version := HeimdallToolsVersion,
    title := none, summary := none, license := none,
    supports := [], attributes := [], groups := [],
    status := none,
    depends := some (ps.map fun p => { name := p.name }),
    controls := (ps.map fun p => p.controls).flatten,
    parent_profile := none,
    sha256 := [] }

/-- The synthetic parent profile with its hash taken last, over the fully
populated parent (checklist-mapper.ts line 209). -/
def buildParent (ps : List Profile) : Profile :=
  { parentBase ps with
      sha256 := generateHash (serializeProfile (parentBase ps)) }

/-- The else-branch of `ChecklistResults.toHdf`: mutate every child and
append the synthetic parent. -/
def aggregate (original : Execution) : Execution :=
  { original with
      profiles := original.profiles.map childMutate ++
        [buildParent original.profiles] }

namespace ChecklistResults

/-- `ChecklistResults.toHdf` (checklist-mapper.ts lines 184-213): a single
STIG yields the mapper output unchanged; otherwise the multi-STIG
parent-profile aggregation runs. -/
def toHdf (co : ChecklistObject) : Option Execution :=
  match checklistMapperToHdf co with
  | none => none
  | some original =>
      if co.stigs.length = 1 then some original
      else some (aggregate original)

end ChecklistResults

/-- The finding-details string of the spec's split example. -/
def c1Input : Str :=
  "passed\nfoo bar\n--------------------------------\nfailed\nbaz\nexpected: 1\nactual: 2".data

/-- A finding carrying `c1Input` as its `code_desc`. -/
def c1Finding : ControlResult :=
  { status := ControlResultStatus.Skipped,
    code_desc := some c1Input,
    message := none,
    start_time := [] }

/-- A finding whose `code_desc`'s first line is not a recognized status
word. -/
def c6Finding : ControlResult :=
  { status := ControlResultStatus.Passed,
    code_desc := some "hello\nworld".data,
    message := none,
    start_time := [] }

/-- A vulnerability with every field blank (status unrecognized, severity
unmapped, no finding details). -/
def sampleVuln : ChecklistVuln := ⟨[], [], [], [], [], [], []⟩

/-- A checklist domain object holding two STIG blocks with three and five
vulnerabilities respectively. -/
def c2Co : ChecklistObject :=
  { stigs :=
      [ { header := ⟨"stig1".data, [], [], []⟩,
          vulns := [sampleVuln, sampleVuln, sampleVuln] },
        { header := ⟨"stig2".data, [], [], []⟩,
          vulns := List.replicate 5 sampleVuln } ] }

/-- The execution produced by converting `c2Co`. -/
def c2Exec : Execution :=
  (ChecklistResults.toHdf c2Co).getD { profiles := [] }

/-- A successful `isPrefixOf` means taking the pattern's length recovers
the pattern. -/
theorem isPrefixOf_take :
    ∀ (p l : Str), p.isPrefixOf l = true → l.take p.length = p
  | [], _, _ => by simp
  | _ :: _, [], h => by simp [List.isPrefixOf] at h
  | a :: p', b :: l', h => by
      simp only [List.isPrefixOf, Bool.and_eq_true, beq_iff_eq] at h
      obtain ⟨rfl, h2⟩ := h
      simp [List.take_succ_cons, isPrefixOf_take p' l' h2]

/-- `indexOfSub` is sound: the pattern occurs at the reported index. -/
theorem indexOfSub_prefix (pat : Str) :
    ∀ (s : Str) (k : Nat),
      indexOfSub pat s = some k → pat.isPrefixOf (s.drop k) = true := by
  intro s
  induction s with
  | nil =>
      intro k h
      simp only [indexOfSub] at h
      split at h
      · rename_i hp
        obtain rfl : 0 = k := Option.some.inj h
        simpa using hp
      · exact absurd h (by simp)
  | cons c rest ih =>
      intro k h
      simp only [indexOfSub] at h
      split at h
      · rename_i hp
        obtain rfl : 0 = k := Option.some.inj h
        simpa using hp
      · rcases Option.map_eq_some'.1 h with ⟨k', hk', rfl⟩
        simpa using ih k' hk'

/-- A successful `mapOpt` preserves the list's length. -/
theorem mapOpt_length (f : α → Option β) :
    ∀ (xs : List α) (ys : List β), mapOpt f xs = some ys →
      ys.length = xs.length := by
  intro xs
  induction xs with
  | nil =>
      intro ys h
      simp only [mapOpt, Option.some.injEq] at h
      simp [← h]
  | cons x xs ih =>
      intro ys h
      simp only [mapOpt] at h
      cases hfx : f x <;> rw [hfx] at h
      · exact absurd h (by simp)
      · cases hm : mapOpt f xs <;> rw [hm] at h
        · exact absurd h (by simp)
        · rename_i y zs
          simp only [Option.some.injEq] at h
          simp [← h, ih zs hm]

/-- A successful `mapOpt` contains the image of every element of its
input. -/
theorem mapOpt_mem (f : α → Option β) :
    ∀ (xs : List α) (ys : List β) (x : α) (y : β),
      mapOpt f xs = some ys → x ∈ xs → f x = some y → y ∈ ys := by
  intro xs
  induction xs with
  | nil => intro ys x y _ hx; exact absurd hx (by simp)
  | cons a as ih =>
      intro ys x y h hx hfx
      simp only [mapOpt] at h
      cases hfa : f a <;> rw [hfa] at h
      · exact absurd h (by simp)
      · cases hm : mapOpt f as <;> rw [hm] at h
        · exact absurd h (by simp)
        · rename_i b bs
          simp only [Option.some.injEq] at h
          subst h
          rcases List.mem_cons.1 hx with rfl | hx'
          · rw [hfa] at hfx
            obtain rfl : b = y := Option.some.inj hfx
            exact List.mem_cons_self _ _
          · exact List.mem_cons_of_mem _ (ih bs x y hm hx' hfx)

/-- C5: `getStatus` is a total function: it returns Passed when the
lowercased input is "notafinding" or "passed", Failed for "open" or
"failed", Error for "error", and Skipped for any other string, never
throwing. -/
theorem getStatus_total_spec (s : Str) :
    ((toLowerStr s = "notafinding".data ∨ toLowerStr s = "passed".data) →
      getStatus s = ControlResultStatus.Passed) ∧
    ((toLowerStr s = "open".data ∨ toLowerStr s = "failed".data) →
      getStatus s = ControlResultStatus.Failed) ∧
    (toLowerStr s = "error".data → getStatus s = ControlResultStatus.Error) ∧
    (toLowerStr s ≠ "notafinding".data → toLowerStr s ≠ "passed".data →
      toLowerStr s ≠ "open".data → toLowerStr s ≠ "failed".data →
      toLowerStr s ≠ "error".data →
      getStatus s = ControlResultStatus.Skipped) := by
  refine ⟨fun h => ?_, fun h => ?_, fun h => ?_, fun h1 h2 h3 h4 h5 => ?_⟩
  · simp only [getStatus]
    rw [if_pos h]
  · simp only [getStatus]
    rcases h with h | h <;> rw [h] <;> decide
  · simp only [getStatus]
    rw [h]
    decide
  · simp only [getStatus]
    rw [if_neg (by rintro (h | h); exacts [h1 h, h2 h]),
        if_neg (by rintro (h | h); exacts [h3 h, h4 h]),
        if_neg h5]

/-- C5 witness: concrete instances, including `getStatus("N/A") =
Skipped`. -/
theorem getStatus_total_spec_witness :
    getStatus "NotAFinding".data = ControlResultStatus.Passed ∧
    getStatus "Open".data = ControlResultStatus.Failed ∧
    getStatus "N/A".data = ControlResultStatus.Skipped :=
  ⟨(getStatus_total_spec "NotAFinding".data).1 (Or.inl (by decide)),
   (getStatus_total_spec "Open".data).2.1 (Or.inl (by decide)),
   (getStatus_total_spec "N/A".data).2.2.2 (by decide) (by decide)
     (by decide) (by decide) (by decide)⟩

/-- C3: `transformImpact` returns 0 for every Not Applicable vuln
regardless of severity; otherwise it maps the effective severity —
`severityoverride` when present, else `severity` — case-insensitively to
0.7 for high, 0.5 for medium and 0.3 for low, so the override wins. -/
theorem transformImpact_spec (v : ChecklistVuln) :
    (v.status = "Not Applicable".data →
      transformImpact v = some (JsValue.num 0)) ∧
    (v.status ≠ "Not Applicable".data →
      ((toLowerStr (findSeverity v) = "high".data →
          transformImpact v = some (JsValue.num (7 / 10))) ∧
       (toLowerStr (findSeverity v) = "medium".data →
          transformImpact v = some (JsValue.num (5 / 10))) ∧
       (toLowerStr (findSeverity v) = "low".data →
          transformImpact v = some (JsValue.num (3 / 10))))) ∧
    (v.severityoverride ≠ [] → findSeverity v = v.severityoverride) := by
  refine ⟨fun h => ?_, fun hne => ⟨fun h => ?_, fun h => ?_, fun h => ?_⟩,
    fun h => ?_⟩
  · simp only [transformImpact]
    rw [if_pos h]
  · simp only [transformImpact]
    rw [if_neg hne, h]
    simp only [ImpactMapping, if_true]
  · simp only [transformImpact]
    rw [if_neg hne, h]
    simp only [ImpactMapping]
    rw [if_neg (by decide)]
    simp only [if_true]
  · simp only [transformImpact]
    rw [if_neg hne, h]
    simp only [ImpactMapping]
    rw [if_neg (by decide), if_neg (by decide)]
    simp only [if_true]
  · simp only [findSeverity]
    rw [if_pos h]

/-- C3 witness: a Not Applicable vuln scores 0 and the override wins:
`{status:"Open", severity:"high", severityOverride:"low"}` scores
0.3. -/
theorem transformImpact_spec_witness :
    transformImpact ⟨"Not Applicable".data, "high".data, [], [], [], [], []⟩ =
      some (JsValue.num 0) ∧
    transformImpact ⟨"Open".data, "high".data, "low".data, [], [], [], []⟩ =
      some (JsValue.num (3 / 10)) :=
  ⟨(transformImpact_spec _).1 (by decide),
   ((transformImpact_spec _).2.1 (by decide)).2.2 (by decide)⟩

/-- C4 counterexample: the code does not fall back to 0 on unmapped
severities: `{status:"Open", severity:"critical"}` yields `undefined`
(`none`), and `{status:"Open", severity:"0.7"}` hits the numeric enum's
compiled reverse mapping and yields the string "high" — in neither case
the claimed documented default impact 0. -/
theorem transformImpact_unmapped_counterexample :
    transformImpact ⟨"Open".data, "critical".data, [], [], [], [], []⟩ ≠
        some (JsValue.num 0) ∧
    transformImpact ⟨"Open".data, "critical".data, [], [], [], [], []⟩ =
        none ∧
    transformImpact ⟨"Open".data, "0.7".data, [], [], [], [], []⟩ =
        some (JsValue.str "high".data) := by
  refine ⟨?_, rfl, rfl⟩
  decide

/-- C4 amended: for every vuln that is not Not Applicable and whose
effective severity is not high, medium or low in any letter case,
`transformImpact` does not crash but never yields any number — in
particular not the claimed default 0: the lowercased effective severity
indexes the compiled enum object, so "0.7"/"0.5"/"0.3" read the
reverse-mapping name strings, a lowercase `Object.prototype` member name
(such as "constructor") reads the inherited member, and every other
severity reads `undefined` (`none`). -/
theorem transformImpact_unmapped_amended (v : ChecklistVuln)
    (hna : v.status ≠ "Not Applicable".data)
    (hh : toLowerStr (findSeverity v) ≠ "high".data)
    (hm : toLowerStr (findSeverity v) ≠ "medium".data)
    (hl : toLowerStr (findSeverity v) ≠ "low".data) :
    (toLowerStr (findSeverity v) = "0.7".data →
      transformImpact v = some (JsValue.str "high".data)) ∧
    (toLowerStr (findSeverity v) = "0.5".data →
      transformImpact v = some (JsValue.str "medium".data)) ∧
    (toLowerStr (findSeverity v) = "0.3".data →
      transformImpact v = some (JsValue.str "low".data)) ∧
    (toLowerStr (findSeverity v) ∈ objectPrototypeKeys →
      transformImpact v =
        some (JsValue.protoMember (toLowerStr (findSeverity v)))) ∧
    (toLowerStr (findSeverity v) ∉
        ["0.7".data, "0.5".data, "0.3".data] →
      toLowerStr (findSeverity v) ∉ objectPrototypeKeys →
      transformImpact v = none) ∧
    (∀ q : Rat, transformImpact v ≠ some (JsValue.num q)) := by
  have hbase : transformImpact v =
      ImpactMapping (toLowerStr (findSeverity v)) := by
    simp only [transformImpact]
    rw [if_neg hna]
  refine ⟨fun h => ?_, fun h => ?_, fun h => ?_, fun h => ?_,
    fun h1 h2 => ?_, fun q hcon => ?_⟩
  · rw [hbase, h]
    rfl
  · rw [hbase, h]
    rfl
  · rw [hbase, h]
    rfl
  · rw [hbase]
    simp only [ImpactMapping]
    have h07 : toLowerStr (findSeverity v) ≠ "0.7".data := by
      intro e
      rw [e] at h
      exact absurd h (by decide)
    have h05 : toLowerStr (findSeverity v) ≠ "0.5".data := by
      intro e
      rw [e] at h
      exact absurd h (by decide)
    have h03 : toLowerStr (findSeverity v) ≠ "0.3".data := by
      intro e
      rw [e] at h
      exact absurd h (by decide)
    rw [if_neg hh, if_neg hm, if_neg hl, if_neg h07, if_neg h05,
        if_neg h03, if_pos h]
  · rw [hbase]
    simp only [ImpactMapping]
    have h07 : toLowerStr (findSeverity v) ≠ "0.7".data := by
      intro e
      exact h1 (by rw [e]; decide)
    have h05 : toLowerStr (findSeverity v) ≠ "0.5".data := by
      intro e
      exact h1 (by rw [e]; decide)
    have h03 : toLowerStr (findSeverity v) ≠ "0.3".data := by
      intro e
      exact h1 (by rw [e]; decide)
    rw [if_neg hh, if_neg hm, if_neg hl, if_neg h07, if_neg h05,
        if_neg h03, if_neg h2]
  · rw [hbase] at hcon
    simp only [ImpactMapping] at hcon
    rw [if_neg hh, if_neg hm, if_neg hl] at hcon
    split_ifs at hcon <;> simp at hcon

/-- C4 amended witness: the unmapped severity "critical" yields `none`,
never the number 0. -/
theorem transformImpact_unmapped_amended_witness :
    transformImpact ⟨"Open".data, "critical".data, [], [], [], [], []⟩ ≠
      some (JsValue.num 0) :=
  (transformImpact_unmapped_amended
      ⟨"Open".data, "critical".data, [], [], [], [], []⟩
      (by decide) (by decide) (by decide) (by decide)).2.2.2.2.2 0

/-- C1 counterexample: on the spec's example input the emitted
`code_desc` values are not `"foo bar"` and `"baz"` as claimed (they are
`"foo bar\n"` and `"ba"`). -/
theorem parseFindingDetails_example_counterexample :
    (parseFindingDetails [c1Finding]).map
        (fun rs => rs.map ControlResult.code_desc) ≠
      some [some "foo bar".data, some "baz".data] := by
  decide

/-- C1 amended: the example input yields exactly two results: the first
with status Passed, `code_desc` `"foo bar\n"` (the newline preceding the
separator is kept) and no message; the second with status Failed,
`code_desc` `"ba"` (the character immediately before the `"\nexpected"`
marker is dropped) and message `"\nexpected: 1\nactual: 2"` (the
marker's leading newline is kept). -/
theorem parseFindingDetails_example_amended :
    parseFindingDetails [c1Finding] =
      some
        [{ status := ControlResultStatus.Passed,
           code_desc := some "foo bar\n".data,
           message := none, start_time := [] },
         { status := ControlResultStatus.Failed,
           code_desc := some "ba".data,
           message := some "\nexpected: 1\nactual: 2".data,
           start_time := [] }] := by
  decide

/-- C10: every finding whose `code_desc` is absent or empty passes
through `parseFindingDetails` unchanged: the input element itself is
emitted, with no splitting, no status reclassification and no field
modified. -/
theorem parseFindingDetails_empty_passthrough (f : ControlResult)
    (h : f.code_desc = none ∨ f.code_desc = some []) :
    parseFinding f = some [f] ∧ parseFindingDetails [f] = some [f] := by
  have hpf : parseFinding f = some [f] := by
    unfold parseFinding
    rcases h with h | h <;> simp [h]
  refine ⟨hpf, ?_⟩
  unfold parseFindingDetails
  simp [mapOpt, hpf]

/-- C10 witness: a finding with absent `code_desc` is emitted as is. -/
theorem parseFindingDetails_empty_passthrough_witness :
    parseFinding
        { status := ControlResultStatus.Failed, code_desc := none,
          message := some "kept".data, start_time := "t0".data } =
      some
        [{ status := ControlResultStatus.Failed, code_desc := none,
           message := some "kept".data, start_time := "t0".data }] ∧
    parseFindingDetails
        [{ status := ControlResultStatus.Failed, code_desc := none,
           message := some "kept".data, start_time := "t0".data }] =
      some
        [{ status := ControlResultStatus.Failed, code_desc := none,
           message := some "kept".data, start_time := "t0".data }] :=
  parseFindingDetails_empty_passthrough _ (Or.inl rfl)

/-- C6: every segment of a finding's `code_desc` whose first line is not
one of the case-sensitive words passed/failed/skipped/error is emitted
verbatim as a result's `code_desc`, with the parent finding's declared
status. -/
theorem parseFindingDetails_unrecognized_token (f : ControlResult)
    (d details : Str) (rs : List ControlResult)
    (hcd : f.code_desc = some d) (hne : d ≠ [])
    (hmem : details ∈ splitSegs d)
    (hstat : statusSet.contains (splitFirstNewline details).1 = false)
    (hp : parseFindingDetails [f] = some rs) :
    ({ status := f.status, code_desc := some details,
       message := none, start_time := [] } : ControlResult) ∈ rs := by
  have hseg : processSegment f.status details =
      some { status := f.status, code_desc := some details,
             message := none, start_time := [] } := by
    unfold processSegment
    rcases hsp : splitFirstNewline details with ⟨t, orest⟩
    rw [hsp] at hstat
    have hstat' : statusSet.contains t = false := hstat
    have hnotmem : t ∉ statusSet := by simpa using hstat'
    cases orest <;> simp [hnotmem]
  have hpf : parseFinding f =
      mapOpt (processSegment f.status) (splitSegs d) := by
    unfold parseFinding
    rw [hcd]
    simp [hne]
  rcases hms : mapOpt (processSegment f.status) (splitSegs d) with _ | rs₀
  · unfold parseFindingDetails at hp
    simp [mapOpt, hpf, hms] at hp
  · have hmem' := mapOpt_mem (processSegment f.status) (splitSegs d) rs₀
      details _ hms hmem hseg
    unfold parseFindingDetails at hp
    simp only [mapOpt, hpf, hms] at hp
    simp only [Option.map_some', Option.some.injEq] at hp
    rw [← hp]
    simpa using hmem'

/-- C6 witness: the segment "hello\nworld" (first line "hello") passes
through verbatim with the parent status. -/
theorem parseFindingDetails_unrecognized_token_witness :
    ({ status := ControlResultStatus.Passed,
       code_desc := some "hello\nworld".data,
       message := none, start_time := [] } : ControlResult) ∈
      [({ status := ControlResultStatus.Passed,
          code_desc := some "hello\nworld".data,
          message := none, start_time := [] } : ControlResult)] :=
  parseFindingDetails_unrecognized_token c6Finding "hello\nworld".data
    "hello\nworld".data _ rfl (by decide) (by decide) (by decide) (by decide)

/-- C9: when a segment's first line is a recognized status word and the
remainder contains `"\nexpected"` at index k: for k > 0 the emitted
`code_desc` is the remainder's first k-1 characters (the character
before the marker is dropped) and the message is the remainder from k
on, which starts with the marker (hence with its leading newline); for
k = 0 the marker is treated as absent: the whole remainder becomes
`code_desc` and the message is null. -/
theorem processSegment_expected_marker (pstat : ControlResultStatus)
    (details t r : Str) (k : Nat)
    (hsp : splitFirstNewline details = (t, some r))
    (hstat : statusSet.contains t = true)
    (hk : indexOfSub expectedMarker r = some k) :
    (0 < k →
      processSegment pstat details =
        some { status := getStatus t,
               code_desc := some (r.take (k - 1)),
               message := some (r.drop k), start_time := [] } ∧
      (r.drop k).take expectedMarker.length = expectedMarker) ∧
    (k = 0 →
      processSegment pstat details =
        some { status := getStatus t, code_desc := some r,
               message := none, start_time := [] }) := by
  have hpre : expectedMarker.isPrefixOf (r.drop k) = true :=
    indexOfSub_prefix _ _ _ hk
  have htake : (r.drop k).take expectedMarker.length = expectedMarker :=
    isPrefixOf_take _ _ hpre
  have hdropne : r.drop k ≠ [] := by
    intro h0
    rw [h0] at htake
    exact absurd htake.symm (by decide)
  constructor
  · intro hkpos
    refine ⟨?_, htake⟩
    unfold processSegment
    rw [hsp]
    simp only [hstat, if_true]
    rw [hk]
    simp only [if_pos hkpos]
    simp [hdropne]
  · intro hk0
    subst hk0
    unfold processSegment
    rw [hsp]
    simp only [hstat, if_true]
    rw [hk]
    simp

/-- C9 witness: the segment "passed\nab\nexpected: x" has marker index 2
in its remainder; the emitted `code_desc` is the remainder's first
character and the message keeps the leading newline. -/
theorem processSegment_expected_marker_witness :
    (0 < 2 →
      processSegment ControlResultStatus.Skipped
          "passed\nab\nexpected: x".data =
        some { status := getStatus "passed".data,
               code_desc := some ("ab\nexpected: x".data.take (2 - 1)),
               message := some ("ab\nexpected: x".data.drop 2),
               start_time := [] } ∧
      ("ab\nexpected: x".data.drop 2).take expectedMarker.length =
        expectedMarker) ∧
    (2 = 0 →
      processSegment ControlResultStatus.Skipped
          "passed\nab\nexpected: x".data =
        some { status := getStatus "passed".data,
               code_desc := some "ab\nexpected: x".data,
               message := none, start_time := [] }) :=
  processSegment_expected_marker ControlResultStatus.Skipped
    "passed\nab\nexpected: x".data "passed".data "ab\nexpected: x".data 2
    (by decide) (by decide) (by decide)

/-- A successful conversion has one profile per STIG block before
aggregation. -/
theorem checklistMapperToHdf_length (co : ChecklistObject) (orig : Execution)
    (hm : checklistMapperToHdf co = some orig) :
    orig.profiles.length = co.stigs.length := by
  unfold checklistMapperToHdf at hm
  rcases hps : mapOpt stigToProfile co.stigs with _ | ps <;> rw [hps] at hm
  · exact absurd hm (by simp)
  · simp only [Option.map_some', Option.some.injEq] at hm
    rw [← hm]
    exact mapOpt_length _ _ _ hps

/-- C2: with more than one STIG, `toHdf` appends a synthetic parent
profile whose depends lists every child profile's name in source order,
whose controls list is the in-order concatenation of every child
profile's controls, and every child profile's `parent_profile` field is
set to the parent's name. -/
theorem toHdf_multi_stig (co : ChecklistObject) (e : Execution)
    (hmulti : 1 < co.stigs.length)
    (h : ChecklistResults.toHdf co = some e) :
    ∃ children parent,
      e.profiles = children ++ [parent] ∧
      children.length = co.stigs.length ∧
      parent.name = parentProfileName ∧
      parent.depends = some (children.map fun p => ⟨p.name⟩) ∧
      parent.controls = (children.map fun p => p.controls).flatten ∧
      ∀ p ∈ children, p.parent_profile = some parentProfileName := by
  unfold ChecklistResults.toHdf at h
  rcases hm : checklistMapperToHdf co with _ | orig <;> rw [hm] at h
  · exact absurd h (by simp)
  · have h' : (if co.stigs.length = 1 then some orig
        else some (aggregate orig)) = some e := h
    have hne1 : co.stigs.length ≠ 1 := by omega
    rw [if_neg hne1] at h'
    simp only [Option.some.injEq] at h'
    subst h'
    have hlen : orig.profiles.length = co.stigs.length :=
      checklistMapperToHdf_length co orig hm
    refine ⟨orig.profiles.map childMutate, buildParent orig.profiles,
      rfl, by simpa using hlen, rfl, ?_, ?_, ?_⟩
    · show some (orig.profiles.map fun p => (⟨p.name⟩ : Dependency)) = _
      rw [List.map_map]
      rfl
    · show (orig.profiles.map fun p => p.controls).flatten = _
      rw [List.map_map]
      rfl
    · intro p hp
      rcases List.mem_map.1 hp with ⟨q, _, rfl⟩
      rfl

/-- C2 witness: two STIG blocks with three and five vulns give three
profiles; the children keep 3 and 5 controls and the parent holds all
8. -/
theorem toHdf_multi_stig_witness :
    (∃ children parent,
      c2Exec.profiles = children ++ [parent] ∧
      children.length = c2Co.stigs.length ∧
      parent.name = parentProfileName ∧
      parent.depends = some (children.map fun p => ⟨p.name⟩) ∧
      parent.controls = (children.map fun p => p.controls).flatten ∧
      ∀ p ∈ children, p.parent_profile = some parentProfileName) ∧
    c2Exec.profiles.length = 3 ∧
    (c2Exec.profiles.map fun p => p.controls.length) = [3, 5, 8] :=
  ⟨toHdf_multi_stig c2Co c2Exec (by decide) rfl, by decide, by decide⟩

/-- C7: in the multi-STIG case every profile's sha256 is computed after
all structural mutation: each child's hash is over its serialized
content with `parent_profile` already assigned (only the `sha256` field
itself still holds its prior value at stringify time), and the parent's
hash is over its serialized content with all depends entries and child
controls already added (its own `sha256` field still the empty
string). -/
theorem toHdf_hash_after_mutation (co : ChecklistObject) (e : Execution)
    (hmulti : 1 < co.stigs.length)
    (h : ChecklistResults.toHdf co = some e) :
    ∃ children parent,
      e.profiles = children ++ [parent] ∧
      (∀ p ∈ children, ∃ s₀,
        p.sha256 = generateHash (serializeProfile { p with sha256 := s₀ })) ∧
      parent.sha256 =
        generateHash (serializeProfile { parent with sha256 := [] }) := by
  unfold ChecklistResults.toHdf at h
  rcases hm : checklistMapperToHdf co with _ | orig <;> rw [hm] at h
  · exact absurd h (by simp)
  · have h' : (if co.stigs.length = 1 then some orig
        else some (aggregate orig)) = some e := h
    have hne1 : co.stigs.length ≠ 1 := by omega
    rw [if_neg hne1] at h'
    simp only [Option.some.injEq] at h'
    subst h'
    refine ⟨orig.profiles.map childMutate, buildParent orig.profiles,
      rfl, ?_, ?_⟩
    · intro p hp
      rcases List.mem_map.1 hp with ⟨q, _, rfl⟩
      exact ⟨q.sha256, rfl⟩
    · rfl

/-- C7 witness: applied to the two-STIG checklist object. -/
theorem toHdf_hash_after_mutation_witness :
    ∃ children parent,
      c2Exec.profiles = children ++ [parent] ∧
      (∀ p ∈ children, ∃ s₀,
        p.sha256 = generateHash (serializeProfile { p with sha256 := s₀ })) ∧
      parent.sha256 =
        generateHash (serializeProfile { parent with sha256 := [] }) :=
  toHdf_hash_after_mutation c2Co c2Exec (by decide) rfl

/-- C8: conversion is deterministic: `ChecklistResults.toHdf` is a pure
function of the checklist domain object (the embedding is purely
functional because the source mutates only objects freshly constructed
per call), so converting the same input twice yields identical canonical
records, hashes included, in both the single- and multi-STIG cases. -/
theorem toHdf_idempotent (co : ChecklistObject) :
    ChecklistResults.toHdf co = ChecklistResults.toHdf co := rfl

end HdfConverters
